import Mathlib

/-
Shallow embedding of the tokenbudget core: the three-tier pricing resolver
(src/tokenbudget/pricing.py), the token/cost tracker (src/tokenbudget/tracker.py)
and the budget-enforcement context (src/tokenbudget/budget.py).

Python ints are modelled as ℤ, Python floats (costs) as ℚ (exact arithmetic),
dicts as association lists with Python dict semantics (assignment overwrites in
place, new keys are appended), and raised exceptions as explicit error values.
Pydantic field validation (Field ge=0 on every Usage field, checked at
construction, not on attribute assignment) is modelled by an explicit
checked constructor returning Option.
-/

namespace TokenBudget

/-- Pricing information for a model, from pricing.py ModelPrice:
cost per 1000 input tokens, per 1000 output tokens, and a provider tag. -/
structure ModelPrice where
  input_per_1k : ℚ
  output_per_1k : ℚ
  provider : String
deriving DecidableEq

/-- Python dict assignment `db[k] = v` on an association list: overwrite the
existing entry in place if the key is present, otherwise append at the end. -/
def dictInsert {β : Type} : List (String × β) → String → β → List (String × β)
  | [], k, v => [(k, v)]
  | (k', v') :: rest, k, v =>
      if k' = k then (k, v) :: rest else (k', v') :: dictInsert rest k v

/-- The three module-level pricing tables of pricing.py:
_CUSTOM_DB (user-registered, highest priority), _LITELLM_DB (remotely
refreshed, middle priority), _PRICING_DB (hardcoded fallback, lowest). -/
structure PricingState where
  custom_db : List (String × ModelPrice)
  litellm_db : List (String × ModelPrice)
  fallback_db : List (String × ModelPrice)
deriving DecidableEq

/-- The hardcoded _PRICING_DB of pricing.py (as of February 2026). -/
def fallbackDB : List (String × ModelPrice) :=
  [ ("gpt-4o", ⟨0.0025, 0.010, "openai"⟩),
    ("gpt-4o-mini", ⟨0.00015, 0.0006, "openai"⟩),
    ("gpt-4-turbo", ⟨0.01, 0.03, "openai"⟩),
    ("gpt-4", ⟨0.03, 0.06, "openai"⟩),
    ("gpt-3.5-turbo", ⟨0.0005, 0.0015, "openai"⟩),
    ("o1", ⟨0.015, 0.060, "openai"⟩),
    ("o1-mini", ⟨0.003, 0.012, "openai"⟩),
    ("o3-mini", ⟨0.0011, 0.0044, "openai"⟩),
    ("claude-opus-4-5", ⟨0.015, 0.075, "anthropic"⟩),
    ("claude-opus-4-5-20251101", ⟨0.015, 0.075, "anthropic"⟩),
    ("claude-sonnet-4-5", ⟨0.003, 0.015, "anthropic"⟩),
    ("claude-sonnet-4-5-20250929", ⟨0.003, 0.015, "anthropic"⟩),
    ("claude-haiku-4-5", ⟨0.0008, 0.004, "anthropic"⟩),
    ("claude-haiku-4-5-20251001", ⟨0.0008, 0.004, "anthropic"⟩),
    ("claude-3-5-sonnet-20241022", ⟨0.003, 0.015, "anthropic"⟩),
    ("claude-3-opus-20240229", ⟨0.015, 0.075, "anthropic"⟩),
    ("gemini-2.0-flash", ⟨0.0, 0.0, "google"⟩),
    ("gemini-2.0-flash-exp", ⟨0.0, 0.0, "google"⟩),
    ("gemini-1.5-pro", ⟨0.00125, 0.005, "google"⟩),
    ("gemini-1.5-flash", ⟨0.000075, 0.0003, "google"⟩) ]

/-- The pricing tables as at module import: custom and litellm empty,
fallback populated with the hardcoded database. -/
def initialPricingState : PricingState := ⟨[], [], fallbackDB⟩

/-- pricing.py get_price: resolves user-registered, then LiteLLM-fetched,
then hardcoded fallback; `none` models raising ModelNotFoundError. -/
def get_price (ps : PricingState) (model : String) : Option ModelPrice :=
  match List.lookup model ps.custom_db with
  | some p => some p
  | none =>
    match List.lookup model ps.litellm_db with
    | some p => some p
    | none => List.lookup model ps.fallback_db

/-- pricing.py register_model: insert/overwrite in the user-registered table. -/
def register_model (ps : PricingState) (model : String) (input_per_1k output_per_1k : ℚ)
    (provider : String) : PricingState :=
  { ps with custom_db := dictInsert ps.custom_db model ⟨input_per_1k, output_per_1k, provider⟩ }

/-- pricing.py calculate_cost: (input_tokens/1000)*input_per_1k +
(output_tokens/1000)*output_per_1k with the resolved price; `none` models
the propagated ModelNotFoundError. Python's `/` is true division, exact in ℚ. -/
def calculate_cost (ps : PricingState) (model : String) (input_tokens output_tokens : ℤ) :
    Option ℚ :=
  (get_price ps model).map fun price =>
    (input_tokens : ℚ) / 1000 * price.input_per_1k +
      (output_tokens : ℚ) / 1000 * price.output_per_1k

/-- pricing.py refresh_pricing, parameterised over the outcome of
fetch_litellm_pricing (which catches every exception and returns None on any
failure, modelled as `none`). On success the litellm tier is cleared and
repopulated with the fetched entries; on failure nothing changes.
Returns the boolean result together with the new table state. -/
def refresh_pricing (ps : PricingState)
    (fetched : Option (List (String × ModelPrice))) : Bool × PricingState :=
  match fetched with
  | some result => (true, { ps with litellm_db := result })
  | none => (false, ps)

/-- tracker.py Usage (a pydantic model): token counters, cost, call count.
Fields are ℤ / ℚ; the `ge=0` constraints are checked only at construction,
see Usage.validate. -/
structure Usage where
  total_tokens : ℤ
  prompt_tokens : ℤ
  completion_tokens : ℤ
  total_cost_usd : ℚ
  calls : ℤ
deriving DecidableEq

/-- The default Usage(): all counters zero. -/
def Usage.default : Usage := ⟨0, 0, 0, 0, 0⟩

/-- Usage.add: field-wise accumulation (attribute assignment, so pydantic
does not re-validate here). -/
def Usage.add (u other : Usage) : Usage :=
  ⟨u.total_tokens + other.total_tokens,
   u.prompt_tokens + other.prompt_tokens,
   u.completion_tokens + other.completion_tokens,
   u.total_cost_usd + other.total_cost_usd,
   u.calls + other.calls⟩

/-- The pydantic constructor Usage(...): every field carries ge=0, so
construction succeeds iff all supplied values are non-negative; a negative
value raises ValidationError, modelled as `none`. -/
def Usage.validate (total_tokens prompt_tokens completion_tokens : ℤ)
    (total_cost_usd : ℚ) (calls : ℤ) : Option Usage :=
  if 0 ≤ total_tokens ∧ 0 ≤ prompt_tokens ∧ 0 ≤ completion_tokens ∧
      0 ≤ total_cost_usd ∧ 0 ≤ calls then
    some ⟨total_tokens, prompt_tokens, completion_tokens, total_cost_usd, calls⟩
  else none

/-- tracker.py CacheStats: plain dataclass counters, no validation. -/
structure CacheStats where
  hits : ℤ
  misses : ℤ
  saved_cost_usd : ℚ
  saved_tokens : ℤ
deriving DecidableEq

/-- The default CacheStats(): all counters zero. -/
def CacheStats.default : CacheStats := ⟨0, 0, 0, 0⟩

/-- The mutable state of a TokenTracker: global aggregate, per-provider
map, cache statistics. The optional cache backend holds no counters and is
not part of the accounting state. -/
structure TrackerState where
  usage : Usage
  usage_by_provider : List (String × Usage)
  cache_stats : CacheStats
deriving DecidableEq

/-- A freshly constructed TokenTracker(): empty usage, empty provider map,
zero cache stats. -/
def trackerInit : TrackerState := ⟨Usage.default, [], CacheStats.default⟩

/-- The exceptions TokenTracker.track can propagate: ModelNotFoundError from
pricing resolution, or pydantic ValidationError from Usage construction. -/
inductive TrackError where
  | modelNotFound
  | validationError
deriving DecidableEq

/-- The per-provider update inside track:
`if provider not in map: map[provider] = Usage()` followed by
`map[provider].add(record)`. Existing entries keep their position; a new
provider key is appended holding `Usage().add(record)`. -/
def updateProvider : List (String × Usage) → String → Usage → List (String × Usage)
  | [], provider, record => [(provider, Usage.default.add record)]
  | (q, u) :: rest, provider, record =>
      if q = provider then (q, u.add record) :: rest
      else (q, u) :: updateProvider rest provider record

/-- tracker.py TokenTracker.track: compute the cost (raising ModelNotFound
before any mutation on a pricing miss), build the per-call Usage record with
calls=1 (pydantic-validated), then add it to the global aggregate and to the
named provider's subtotal. Returns the post-state together with the raised
exception, if any; on an exception the state is the unchanged pre-state,
exactly as in the source, where the raise precedes every mutation. -/
def track (ps : PricingState) (s : TrackerState) (model : String)
    (prompt_tokens completion_tokens : ℤ) (provider : String) :
    TrackerState × Option TrackError :=
  match calculate_cost ps model prompt_tokens completion_tokens with
  | none => (s, some .modelNotFound)
  | some cost =>
    match Usage.validate (prompt_tokens + completion_tokens) prompt_tokens
        completion_tokens cost 1 with
    | none => (s, some .validationError)
    | some record =>
        ({ s with
            usage := s.usage.add record,
            usage_by_provider := updateProvider s.usage_by_provider provider record },
         none)

/-- tracker.py record_cache_hit: hits += 1, saved_tokens += saved_tokens,
saved_cost_usd += saved_cost. -/
def record_cache_hit (s : TrackerState) (saved_tokens : ℤ) (saved_cost : ℚ) : TrackerState :=
  { s with cache_stats :=
      { s.cache_stats with
          hits := s.cache_stats.hits + 1,
          saved_tokens := s.cache_stats.saved_tokens + saved_tokens,
          saved_cost_usd := s.cache_stats.saved_cost_usd + saved_cost } }

/-- tracker.py record_cache_miss: misses += 1. -/
def record_cache_miss (s : TrackerState) : TrackerState :=
  { s with cache_stats := { s.cache_stats with misses := s.cache_stats.misses + 1 } }

/-- tracker.py reset: fresh Usage, cleared provider map, fresh CacheStats. -/
def reset (_s : TrackerState) : TrackerState :=
  ⟨Usage.default, [], CacheStats.default⟩

/-- budget.py BudgetContext: optional cost cap, optional token cap, and the
snapshot of tracker.usage captured at construction (self._initial_usage). -/
structure BudgetContext where
  max_cost_usd : Option ℚ
  max_tokens : Option ℤ
  initial_usage : Usage
deriving DecidableEq

/-- Field-wise difference of two Usage values (the subtraction performed
inside BudgetContext.current_usage before validation). -/
def usageSub (a b : Usage) : Usage :=
  ⟨a.total_tokens - b.total_tokens,
   a.prompt_tokens - b.prompt_tokens,
   a.completion_tokens - b.completion_tokens,
   a.total_cost_usd - b.total_cost_usd,
   a.calls - b.calls⟩

/-- budget.py BudgetContext.current_usage: constructs Usage(...) from the
field-wise difference tracker.usage - initial_usage, computed fresh from the
tracker's usage snapshot `tu` on each access. The pydantic constructor
validates ge=0 on every field, so a negative difference raises
ValidationError, modelled as `none`. -/
def current_usage (bc : BudgetContext) (tu : Usage) : Option Usage :=
  let d := usageSub tu bc.initial_usage
  Usage.validate d.total_tokens d.prompt_tokens d.completion_tokens
    d.total_cost_usd d.calls

/-- budget.py BudgetContext.remaining_tokens: None when no token cap is set
(returned before current_usage is touched); otherwise max(0, cap - current
total tokens). The outer Option is the ValidationError current_usage can
raise: `none` = error, `some none` = no cap, `some (some n)` = value. -/
def remaining_tokens (bc : BudgetContext) (tu : Usage) : Option (Option ℤ) :=
  match bc.max_tokens with
  | none => some none
  | some mt =>
      (current_usage bc tu).map fun u => some (max 0 (mt - u.total_tokens))

/-- The outcome of budget.py BudgetContext.check_limits: normal return,
ValidationError from current_usage, BudgetExceeded carrying (current_cost,
max_cost), or TokenLimitReached carrying (current_tokens, max_tokens). -/
inductive CheckOutcome where
  | ok
  | validationError
  | budgetExceeded (current_cost max_cost : ℚ)
  | tokenLimitReached (current_tokens max_tokens : ℤ)
deriving DecidableEq

/-- The second check of check_limits: if a token cap is set and current
total tokens strictly exceed it, raise TokenLimitReached. -/
def checkTokenLimit (bc : BudgetContext) (u : Usage) : CheckOutcome :=
  match bc.max_tokens with
  | some mt => if mt < u.total_tokens then .tokenLimitReached u.total_tokens mt else .ok
  | none => .ok

/-- budget.py BudgetContext.check_limits: read current_usage once, then the
cost check (BudgetExceeded if a cost cap is set and current cost strictly
exceeds it), then the token check. -/
def check_limits (bc : BudgetContext) (tu : Usage) : CheckOutcome :=
  match current_usage bc tu with
  | none => .validationError
  | some u =>
    match bc.max_cost_usd with
    | some mc =>
        if mc < u.total_cost_usd then .budgetExceeded u.total_cost_usd mc
        else checkTokenLimit bc u
    | none => checkTokenLimit bc u

/-- budget.py BudgetContext.__enter__ on the ambient _budget_context
ContextVar: unconditionally set it to this context. -/
def enterCtx (bc : BudgetContext) (_amb : Option BudgetContext) : Option BudgetContext :=
  some bc

/-- budget.py BudgetContext.__exit__ on the ambient _budget_context
ContextVar: `_budget_context.set(None)` — it sets the variable to None
unconditionally, with no token-based restore of the previous value. -/
def exitCtx (_amb : Option BudgetContext) : Option BudgetContext :=
  none

/-- budget.py get_current_budget: read the ambient ContextVar. -/
def get_current_budget (amb : Option BudgetContext) : Option BudgetContext :=
  amb

/-- A sequence of track calls (model, prompt_tokens, completion_tokens,
provider) folded over a tracker state; `none` when any call raises. -/
def trackList (ps : PricingState) (s : TrackerState) :
    List (String × ℤ × ℤ × String) → Option TrackerState
  | [] => some s
  | (model, pt, ct, provider) :: rest =>
      match track ps s model pt ct provider with
      | (s1, none) => trackList ps s1 rest
      | (_, some _) => none

/-- Looking up the just-inserted key returns the inserted value. -/
theorem lookup_dictInsert_self {β : Type} (db : List (String × β)) (k : String) (v : β) :
    List.lookup k (dictInsert db k v) = some v := by
  induction db with
  | nil => simp [dictInsert, List.lookup_cons]
  | cons e rest ih =>
    obtain ⟨k', v'⟩ := e
    by_cases h : k' = k
    · subst h; simp [dictInsert, List.lookup_cons]
    · rw [dictInsert, if_neg h, List.lookup_cons, beq_false_of_ne (Ne.symm h)]
      exact ih

/-- Looking up any other key is unaffected by dictInsert. -/
theorem lookup_dictInsert_ne {β : Type} (db : List (String × β)) (k k' : String) (v : β)
    (h : k' ≠ k) : List.lookup k' (dictInsert db k v) = List.lookup k' db := by
  induction db with
  | nil => simp [dictInsert, List.lookup_cons, beq_false_of_ne h]
  | cons e rest ih =>
    obtain ⟨q, w⟩ := e
    by_cases hq : q = k
    · subst hq
      rw [dictInsert, if_pos rfl, List.lookup_cons, List.lookup_cons,
        beq_false_of_ne h]
    · rw [dictInsert, if_neg hq, List.lookup_cons, List.lookup_cons]
      cases hqk : k' == q with
      | true => rfl
      | false => exact ih

/-- updateProvider at the named provider: the entry becomes the previous
subtotal (or a fresh zero Usage on first use) plus the new record. -/
theorem lookup_updateProvider_self (db : List (String × Usage)) (p : String) (r : Usage) :
    List.lookup p (updateProvider db p r) =
      some (((List.lookup p db).getD Usage.default).add r) := by
  induction db with
  | nil => simp [updateProvider, List.lookup_cons]
  | cons e rest ih =>
    obtain ⟨q, u⟩ := e
    by_cases hq : q = p
    · subst hq; simp [updateProvider, List.lookup_cons]
    · rw [updateProvider, if_neg hq, List.lookup_cons, List.lookup_cons,
        beq_false_of_ne (Ne.symm hq)]
      exact ih

/-- updateProvider leaves every other provider's subtotal unchanged. -/
theorem lookup_updateProvider_ne (db : List (String × Usage)) (p q : String) (r : Usage)
    (h : q ≠ p) : List.lookup q (updateProvider db p r) = List.lookup q db := by
  induction db with
  | nil => simp [updateProvider, List.lookup_cons, beq_false_of_ne h]
  | cons e rest ih =>
    obtain ⟨k, u⟩ := e
    by_cases hk : k = p
    · subst hk
      rw [updateProvider, if_pos rfl, List.lookup_cons, List.lookup_cons,
        beq_false_of_ne h]
    · rw [updateProvider, if_neg hk, List.lookup_cons, List.lookup_cons]
      cases hqk : q == k with
      | true => rfl
      | false => exact ih

/-- calculate_cost fails exactly when pricing resolution fails. -/
theorem calculate_cost_eq_none_iff (ps : PricingState) (model : String)
    (input_tokens output_tokens : ℤ) :
    calculate_cost ps model input_tokens output_tokens = none ↔
      get_price ps model = none := by
  simp [calculate_cost]

/-- On a pricing miss, track raises ModelNotFound and leaves the state as it
was (the raise in calculate_cost precedes every mutation in the source). -/
theorem track_of_price_miss (ps : PricingState) (s : TrackerState) (model : String)
    (pt ct : ℤ) (provider : String) (h : get_price ps model = none) :
    track ps s model pt ct provider = (s, some .modelNotFound) := by
  simp [track, calculate_cost, h]

/-- The pydantic Usage constructor succeeds on non-negative inputs. -/
theorem usage_validate_of_nonneg (tt pt ct : ℤ) (c : ℚ) (n : ℤ)
    (h1 : 0 ≤ tt) (h2 : 0 ≤ pt) (h3 : 0 ≤ ct) (h4 : 0 ≤ c) (h5 : 0 ≤ n) :
    Usage.validate tt pt ct c n = some ⟨tt, pt, ct, c, n⟩ := by
  unfold Usage.validate
  rw [if_pos ⟨h1, h2, h3, h4, h5⟩]

/-- On a pricing hit with non-negative token counts and non-negative cost,
track returns no exception and performs exactly the two additions. -/
theorem track_of_success (ps : PricingState) (s : TrackerState) (model : String)
    (pt ct : ℤ) (provider : String) (cost : ℚ)
    (hc : calculate_cost ps model pt ct = some cost)
    (hpt : 0 ≤ pt) (hct : 0 ≤ ct) (hcost : 0 ≤ cost) :
    track ps s model pt ct provider =
      ({ s with
          usage := s.usage.add ⟨pt + ct, pt, ct, cost, 1⟩,
          usage_by_provider :=
            updateProvider s.usage_by_provider provider ⟨pt + ct, pt, ct, cost, 1⟩ },
       none) := by
  simp only [track, hc]
  rw [usage_validate_of_nonneg (pt + ct) pt ct cost 1 (by omega) hpt hct hcost (by norm_num)]

/-- A successful track call adds pt+ct, pt, ct and one call to the global
aggregate's counters, whatever the model and provider. -/
theorem track_counts (ps : PricingState) (s : TrackerState) (model : String)
    (pt ct : ℤ) (provider : String) (s1 : TrackerState)
    (h : track ps s model pt ct provider = (s1, none)) :
    s1.usage.total_tokens = s.usage.total_tokens + (pt + ct) ∧
    s1.usage.prompt_tokens = s.usage.prompt_tokens + pt ∧
    s1.usage.completion_tokens = s.usage.completion_tokens + ct ∧
    s1.usage.calls = s.usage.calls + 1 := by
  rw [track] at h
  cases hc : calculate_cost ps model pt ct with
  | none => simp only [hc] at h; exact absurd (congrArg Prod.snd h) (by simp)
  | some cost =>
    simp only [hc] at h
    cases hv : Usage.validate (pt + ct) pt ct cost 1 with
    | none => simp only [hv] at h; exact absurd (congrArg Prod.snd h) (by simp)
    | some record =>
      simp only [hv] at h
      have hrec : record = ⟨pt + ct, pt, ct, cost, 1⟩ := by
        unfold Usage.validate at hv
        split at hv
        · exact (Option.some.injEq _ _ ▸ hv).symm ▸ rfl
        · exact absurd hv (by simp)
      have hs1 : s1 = { s with
          usage := s.usage.add record,
          usage_by_provider := updateProvider s.usage_by_provider provider record } :=
        (congrArg Prod.fst h).symm
      subst hs1 hrec
      simp [Usage.add]

/-- Folding successful track calls over any starting state adds the
per-call token and call counts to the aggregate's counters. -/
theorem trackList_counts (ps : PricingState) :
    ∀ (l : List (String × ℤ × ℤ × String)) (s s1 : TrackerState),
      trackList ps s l = some s1 →
      s1.usage.total_tokens = s.usage.total_tokens + (l.map fun c => c.2.1 + c.2.2.1).sum ∧
      s1.usage.prompt_tokens = s.usage.prompt_tokens + (l.map fun c => c.2.1).sum ∧
      s1.usage.completion_tokens = s.usage.completion_tokens + (l.map fun c => c.2.2.1).sum ∧
      s1.usage.calls = s.usage.calls + l.length := by
  intro l
  induction l with
  | nil =>
    intro s s1 h
    simp only [trackList, Option.some.injEq] at h
    subst h
    simp
  | cons c rest ih =>
    intro s s1 h
    obtain ⟨model, pt, ct, provider⟩ := c
    rw [trackList] at h
    cases ht : track ps s model pt ct provider with
    | mk s2 err =>
      rw [ht] at h
      cases err with
      | some e => exact absurd h (by simp)
      | none =>
        have h2 : trackList ps s2 rest = some s1 := h
        obtain ⟨a1, a2, a3, a4⟩ := track_counts ps s model pt ct provider s2 ht
        obtain ⟨b1, b2, b3, b4⟩ := ih s2 s1 h2
        refine ⟨?_, ?_, ?_, ?_⟩ <;>
          simp only [List.map_cons, List.sum_cons, List.length_cons] <;>
          push_cast <;> omega

/-- Claim C1: for every sequence of N successful track(model, prompt_i,
completion_i, provider_i) calls on a freshly constructed TokenTracker, the
usage snapshot satisfies total_tokens = Σ (prompt_i + completion_i),
prompt_tokens = Σ prompt_i, completion_tokens = Σ completion_i, and
calls = N. -/
theorem claim_C1 (ps : PricingState) (l : List (String × ℤ × ℤ × String))
    (s1 : TrackerState) (h : trackList ps trackerInit l = some s1) :
    s1.usage.total_tokens = (l.map fun c => c.2.1 + c.2.2.1).sum ∧
    s1.usage.prompt_tokens = (l.map fun c => c.2.1).sum ∧
    s1.usage.completion_tokens = (l.map fun c => c.2.2.1).sum ∧
    s1.usage.calls = l.length := by
  obtain ⟨a1, a2, a3, a4⟩ := trackList_counts ps l trackerInit s1 h
  simp only [trackerInit, Usage.default, zero_add] at a1 a2 a3 a4
  exact ⟨a1, a2, a3, a4⟩

/-- A concrete two-call run used to witness claim C1. -/
def demoCalls : List (String × ℤ × ℤ × String) :=
  [("gpt-4o", 10, 5, "openai"), ("gpt-4o-mini", 20, 10, "openai")]

/-- The tracker state after the two demo calls. -/
def demoFinal : TrackerState :=
  (trackList initialPricingState trackerInit demoCalls).getD trackerInit

/-- Witness for claim C1 at the concrete two-call run. -/
theorem claim_C1_witness :
    demoFinal.usage.total_tokens = (demoCalls.map fun c => c.2.1 + c.2.2.1).sum ∧
    demoFinal.usage.prompt_tokens = (demoCalls.map fun c => c.2.1).sum ∧
    demoFinal.usage.completion_tokens = (demoCalls.map fun c => c.2.2.1).sum ∧
    demoFinal.usage.calls = demoCalls.length :=
  claim_C1 initialPricingState demoCalls demoFinal (by
    repeat (first
      | rfl
      | (simp [demoFinal, demoCalls, trackList, track, calculate_cost, get_price,
          initialPricingState, fallbackDB, Usage.validate, updateProvider, trackerInit,
          Usage.default, CacheStats.default, Usage.add, List.lookup])
      | norm_num))

/-- Claim C4: get_price resolves in strict priority order (user-registered,
then remotely-refreshed, then built-in fallback), fails exactly when the
model is absent from all three tables, and after register_model the
registered entry wins regardless of the other tiers. -/
theorem claim_C4 (ps : PricingState) (model : String) :
    (∀ p, List.lookup model ps.custom_db = some p → get_price ps model = some p) ∧
    (List.lookup model ps.custom_db = none →
      ∀ p, List.lookup model ps.litellm_db = some p → get_price ps model = some p) ∧
    (List.lookup model ps.custom_db = none → List.lookup model ps.litellm_db = none →
      get_price ps model = List.lookup model ps.fallback_db) ∧
    (get_price ps model = none ↔
      List.lookup model ps.custom_db = none ∧ List.lookup model ps.litellm_db = none ∧
        List.lookup model ps.fallback_db = none) ∧
    (∀ i o pr, get_price (register_model ps model i o pr) model = some ⟨i, o, pr⟩) := by
  refine ⟨?_, ?_, ?_, ?_, ?_⟩
  · intro p hp; simp [get_price, hp]
  · intro hc p hp; simp [get_price, hc, hp]
  · intro hc hl; simp [get_price, hc, hl]
  · constructor
    · intro h
      unfold get_price at h
      cases hc : List.lookup model ps.custom_db with
      | some p => rw [hc] at h; exact absurd h (by simp)
      | none =>
        rw [hc] at h
        cases hl : List.lookup model ps.litellm_db with
        | some p => rw [hl] at h; exact absurd h (by simp)
        | none => rw [hl] at h; exact ⟨rfl, rfl, h⟩
    · rintro ⟨hc, hl, hf⟩; simp [get_price, hc, hl, hf]
  · intro i o pr
    simp [get_price, register_model, lookup_dictInsert_self]

/-- Witness for claim C4: on the shipped tables, "gpt-4o" resolves from the
fallback tier, and registering "gpt-4o" overrides it. -/
theorem claim_C4_witness :
    get_price initialPricingState "gpt-4o" = List.lookup "gpt-4o" fallbackDB ∧
    get_price (register_model initialPricingState "gpt-4o" 1 2 "custom") "gpt-4o" =
      some ⟨1, 2, "custom"⟩ :=
  ⟨(claim_C4 initialPricingState "gpt-4o").2.2.1 rfl rfl,
   (claim_C4 initialPricingState "gpt-4o").2.2.2.2 1 2 "custom"⟩

/-- Claim C7: refresh_pricing never raises and returns a boolean; on a
failed fetch it returns false and leaves all three tables untouched; on a
successful fetch it returns true, replaces the refreshed tier wholesale
with the fetched entries, and leaves the other two tiers unchanged.
(Totality of refresh_pricing over every fetch outcome is the never-raises
property: fetch_litellm_pricing catches every exception and reports
failure as None.) -/
theorem claim_C7 (ps : PricingState) (fetched : Option (List (String × ModelPrice))) :
    (fetched = none → refresh_pricing ps fetched = (false, ps)) ∧
    (∀ r, fetched = some r →
      (refresh_pricing ps fetched).1 = true ∧
      (refresh_pricing ps fetched).2.litellm_db = r ∧
      (refresh_pricing ps fetched).2.custom_db = ps.custom_db ∧
      (refresh_pricing ps fetched).2.fallback_db = ps.fallback_db) := by
  constructor
  · intro h; subst h; rfl
  · intro r h; subst h; exact ⟨rfl, rfl, rfl, rfl⟩

/-- Witness for claim C7 at a failed fetch and at a one-entry successful
fetch over the shipped tables. -/
theorem claim_C7_witness :
    refresh_pricing initialPricingState none = (false, initialPricingState) ∧
    (refresh_pricing initialPricingState (some [("m", ⟨1, 2, "x"⟩)])).1 = true ∧
    (refresh_pricing initialPricingState (some [("m", ⟨1, 2, "x"⟩)])).2.litellm_db =
      [("m", ⟨1, 2, "x"⟩)] ∧
    (refresh_pricing initialPricingState (some [("m", ⟨1, 2, "x"⟩)])).2.fallback_db =
      initialPricingState.fallback_db :=
  ⟨(claim_C7 initialPricingState none).1 rfl,
   ((claim_C7 initialPricingState (some [("m", ⟨1, 2, "x"⟩)])).2 _ rfl).1,
   ((claim_C7 initialPricingState (some [("m", ⟨1, 2, "x"⟩)])).2 _ rfl).2.1,
   ((claim_C7 initialPricingState (some [("m", ⟨1, 2, "x"⟩)])).2 _ rfl).2.2.2⟩

/-- Claim C8: record_cache_hit increments hits by 1 and adds exactly the
supplied amounts to saved_tokens and saved_cost_usd, leaving misses, the
global usage aggregate and the per-provider map unchanged;
record_cache_miss increments only misses. -/
theorem claim_C8 (s : TrackerState) (st : ℤ) (sc : ℚ) :
    (record_cache_hit s st sc).cache_stats.hits = s.cache_stats.hits + 1 ∧
    (record_cache_hit s st sc).cache_stats.saved_tokens = s.cache_stats.saved_tokens + st ∧
    (record_cache_hit s st sc).cache_stats.saved_cost_usd = s.cache_stats.saved_cost_usd + sc ∧
    (record_cache_hit s st sc).cache_stats.misses = s.cache_stats.misses ∧
    (record_cache_hit s st sc).usage = s.usage ∧
    (record_cache_hit s st sc).usage_by_provider = s.usage_by_provider ∧
    (record_cache_miss s).cache_stats.misses = s.cache_stats.misses + 1 ∧
    (record_cache_miss s).cache_stats.hits = s.cache_stats.hits ∧
    (record_cache_miss s).cache_stats.saved_tokens = s.cache_stats.saved_tokens ∧
    (record_cache_miss s).cache_stats.saved_cost_usd = s.cache_stats.saved_cost_usd ∧
    (record_cache_miss s).usage = s.usage ∧
    (record_cache_miss s).usage_by_provider = s.usage_by_provider := by
  refine ⟨rfl, rfl, rfl, rfl, rfl, rfl, rfl, rfl, rfl, rfl, rfl, rfl⟩

/-- A concrete outer budget context used for the ambient-scope claim. -/
def outerDemo : BudgetContext := ⟨none, some 100, Usage.default⟩

/-- A concrete inner budget context used for the ambient-scope claim. -/
def innerDemo : BudgetContext := ⟨some 1, none, Usage.default⟩

/-- Counterexample to claim C5 as stated: enter an outer context, enter a
nested inner context, exit the inner one. __exit__ sets the ambient
ContextVar to None unconditionally, so get_current_budget yields none, not
the outer context — exiting does not restore what was ambient before the
inner entry. -/
theorem claim_C5_counterexample :
    get_current_budget (exitCtx (enterCtx innerDemo (enterCtx outerDemo none))) = none ∧
    get_current_budget (exitCtx (enterCtx innerDemo (enterCtx outerDemo none))) ≠
      some outerDemo :=
  ⟨rfl, fun h => Option.noConfusion h⟩

/-- Claim C5 as amended: entering replaces the ambient budget reference with
the new context, and exiting unconditionally clears the ambient reference to
None rather than restoring the previously ambient one; in particular, after
an inner nested context exits, no ambient budget is active. -/
theorem claim_C5 (amb : Option BudgetContext) (bc : BudgetContext) :
    get_current_budget (enterCtx bc amb) = some bc ∧
    get_current_budget (exitCtx amb) = none :=
  ⟨rfl, rfl⟩

/-- current_usage succeeds with exactly the field-wise difference whenever
every tracker counter is at least its baseline value. -/
theorem current_usage_of_le (bc : BudgetContext) (tu : Usage)
    (h1 : bc.initial_usage.total_tokens ≤ tu.total_tokens)
    (h2 : bc.initial_usage.prompt_tokens ≤ tu.prompt_tokens)
    (h3 : bc.initial_usage.completion_tokens ≤ tu.completion_tokens)
    (h4 : bc.initial_usage.total_cost_usd ≤ tu.total_cost_usd)
    (h5 : bc.initial_usage.calls ≤ tu.calls) :
    current_usage bc tu = some (usageSub tu bc.initial_usage) := by
  unfold current_usage
  exact usage_validate_of_nonneg _ _ _ _ _
    (by simp [usageSub]; omega) (by simp [usageSub]; omega) (by simp [usageSub]; omega)
    (by simp [usageSub]; linarith) (by simp [usageSub]; omega)

/-- Claim C2: whenever the tracker's counters are at least the baseline
captured at context creation, current_usage equals the field-wise difference
tracker.usage - baseline; remaining_tokens is absent when no token cap is
set, and otherwise equals max(0, max_tokens - current total tokens), which
is never negative. -/
theorem claim_C2 (bc : BudgetContext) (tu : Usage)
    (h1 : bc.initial_usage.total_tokens ≤ tu.total_tokens)
    (h2 : bc.initial_usage.prompt_tokens ≤ tu.prompt_tokens)
    (h3 : bc.initial_usage.completion_tokens ≤ tu.completion_tokens)
    (h4 : bc.initial_usage.total_cost_usd ≤ tu.total_cost_usd)
    (h5 : bc.initial_usage.calls ≤ tu.calls) :
    current_usage bc tu = some (usageSub tu bc.initial_usage) ∧
    (bc.max_tokens = none → remaining_tokens bc tu = some none) ∧
    (∀ mt, bc.max_tokens = some mt →
      remaining_tokens bc tu =
        some (some (max 0 (mt - (tu.total_tokens - bc.initial_usage.total_tokens)))) ∧
      ∀ n, remaining_tokens bc tu = some (some n) → 0 ≤ n) := by
  have hcu := current_usage_of_le bc tu h1 h2 h3 h4 h5
  refine ⟨hcu, ?_, ?_⟩
  · intro h; simp [remaining_tokens, h]
  · intro mt h
    have heq : remaining_tokens bc tu =
        some (some (max 0 (mt - (tu.total_tokens - bc.initial_usage.total_tokens)))) := by
      simp [remaining_tokens, h, hcu, usageSub]
    refine ⟨heq, ?_⟩
    intro n hn
    rw [heq] at hn
    have hmax := Option.some.inj (Option.some.inj hn)
    rw [← hmax]
    exact le_max_left 0 _

/-- A concrete context (token cap 50, non-zero baseline) for claim C2. -/
def c2Ctx : BudgetContext := ⟨none, some 50, ⟨100, 60, 40, 1, 1⟩⟩

/-- A concrete tracker usage snapshot larger than the C2 baseline. -/
def c2Usage : Usage := ⟨130, 80, 50, 2, 2⟩

/-- Witness for claim C2: delta semantics and the clamped remaining token
count on concrete pre-existing usage. -/
theorem claim_C2_witness :
    current_usage c2Ctx c2Usage = some (usageSub c2Usage c2Ctx.initial_usage) ∧
    remaining_tokens c2Ctx c2Usage =
      some (some (max 0 (50 - (c2Usage.total_tokens - c2Ctx.initial_usage.total_tokens)))) :=
  ⟨(claim_C2 c2Ctx c2Usage (by decide) (by decide) (by decide) (by decide) (by decide)).1,
   ((claim_C2 c2Ctx c2Usage (by decide) (by decide) (by decide) (by decide) (by decide)).2.2
      50 (by rfl)).1⟩

/-- Claim C10: the Usage type constrains every field to be non-negative and
current_usage builds a fresh Usage from the field-wise difference; when
every tracker counter is at least its baseline value it succeeds with
non-negative fields, and when any counter drops below the baseline (e.g.
after reset() on the shared tracker) it raises a validation error instead
of returning a Usage with negative fields. -/
theorem claim_C10 (bc : BudgetContext) (tu : Usage) :
    ((bc.initial_usage.total_tokens ≤ tu.total_tokens ∧
      bc.initial_usage.prompt_tokens ≤ tu.prompt_tokens ∧
      bc.initial_usage.completion_tokens ≤ tu.completion_tokens ∧
      bc.initial_usage.total_cost_usd ≤ tu.total_cost_usd ∧
      bc.initial_usage.calls ≤ tu.calls) →
      current_usage bc tu = some (usageSub tu bc.initial_usage) ∧
      0 ≤ (usageSub tu bc.initial_usage).total_tokens ∧
      0 ≤ (usageSub tu bc.initial_usage).prompt_tokens ∧
      0 ≤ (usageSub tu bc.initial_usage).completion_tokens ∧
      0 ≤ (usageSub tu bc.initial_usage).total_cost_usd ∧
      0 ≤ (usageSub tu bc.initial_usage).calls) ∧
    ((tu.total_tokens < bc.initial_usage.total_tokens ∨
      tu.prompt_tokens < bc.initial_usage.prompt_tokens ∨
      tu.completion_tokens < bc.initial_usage.completion_tokens ∨
      tu.total_cost_usd < bc.initial_usage.total_cost_usd ∨
      tu.calls < bc.initial_usage.calls) →
      current_usage bc tu = none) := by
  constructor
  · rintro ⟨h1, h2, h3, h4, h5⟩
    refine ⟨current_usage_of_le bc tu h1 h2 h3 h4 h5, ?_, ?_, ?_, ?_, ?_⟩ <;>
      simp [usageSub] <;> first | omega | linarith
  · intro h
    unfold current_usage Usage.validate
    rw [if_neg]
    rintro ⟨g1, g2, g3, g4, g5⟩
    simp [usageSub] at g1 g2 g3 g4 g5
    rcases h with h | h | h | h | h
    · omega
    · omega
    · omega
    · linarith
    · omega

/-- A context whose baseline reflects 15 already-tracked tokens, for the C10
witness (the tracker is then reset, dropping its counters to zero). -/
def c10Ctx : BudgetContext := ⟨none, none, ⟨15, 10, 5, 1, 1⟩⟩

/-- Witness for claim C10: with counters at the baseline the delta is
returned; after a reset (all counters zero, below the baseline) accessing
current_usage raises a validation error. -/
theorem claim_C10_witness :
    current_usage c10Ctx ⟨15, 10, 5, 1, 1⟩ =
      some (usageSub ⟨15, 10, 5, 1, 1⟩ c10Ctx.initial_usage) ∧
    current_usage c10Ctx Usage.default = none :=
  ⟨((claim_C10 c10Ctx ⟨15, 10, 5, 1, 1⟩).1 (by decide)).1,
   (claim_C10 c10Ctx Usage.default).2 (by decide)⟩

/-- Claim C3: with a valid delta, check_limits raises BudgetExceeded
(carrying current and max cost) exactly when a cost cap is set and current
cost strictly exceeds it; raises TokenLimitReached (carrying current and max
tokens) exactly when a token cap is set, current tokens strictly exceed it,
and the cost check did not already fire; when both caps are violated only
BudgetExceeded is raised (cost check evaluated first); when neither cap is
strictly exceeded — equality included — nothing is raised. -/
theorem claim_C3 (bc : BudgetContext) (tu : Usage)
    (h1 : bc.initial_usage.total_tokens ≤ tu.total_tokens)
    (h2 : bc.initial_usage.prompt_tokens ≤ tu.prompt_tokens)
    (h3 : bc.initial_usage.completion_tokens ≤ tu.completion_tokens)
    (h4 : bc.initial_usage.total_cost_usd ≤ tu.total_cost_usd)
    (h5 : bc.initial_usage.calls ≤ tu.calls) :
    (∀ mc, bc.max_cost_usd = some mc →
      mc < (usageSub tu bc.initial_usage).total_cost_usd →
      check_limits bc tu =
        .budgetExceeded (usageSub tu bc.initial_usage).total_cost_usd mc) ∧
    (∀ mt, bc.max_tokens = some mt →
      mt < (usageSub tu bc.initial_usage).total_tokens →
      ¬(∃ mc, bc.max_cost_usd = some mc ∧
          mc < (usageSub tu bc.initial_usage).total_cost_usd) →
      check_limits bc tu =
        .tokenLimitReached (usageSub tu bc.initial_usage).total_tokens mt) ∧
    (¬(∃ mc, bc.max_cost_usd = some mc ∧
        mc < (usageSub tu bc.initial_usage).total_cost_usd) →
      ¬(∃ mt, bc.max_tokens = some mt ∧
        mt < (usageSub tu bc.initial_usage).total_tokens) →
      check_limits bc tu = .ok) ∧
    (∀ c m, check_limits bc tu = .budgetExceeded c m →
      bc.max_cost_usd = some m ∧ c = (usageSub tu bc.initial_usage).total_cost_usd ∧
        m < c) ∧
    (∀ c m, check_limits bc tu = .tokenLimitReached c m →
      bc.max_tokens = some m ∧ c = (usageSub tu bc.initial_usage).total_tokens ∧
        m < c ∧
      ¬(∃ mc, bc.max_cost_usd = some mc ∧
          mc < (usageSub tu bc.initial_usage).total_cost_usd)) := by
  have hcu := current_usage_of_le bc tu h1 h2 h3 h4 h5
  refine ⟨?_, ?_, ?_, ?_, ?_⟩
  · intro mc hmc hlt
    simp [check_limits, hcu, hmc, hlt]
  · intro mt hmt hlt hnc
    rcases hc : bc.max_cost_usd with _ | mc
    · simp [check_limits, hcu, hc, checkTokenLimit, hmt, hlt]
    · have hno : ¬ mc < (usageSub tu bc.initial_usage).total_cost_usd :=
        fun hl => hnc ⟨mc, hc, hl⟩
      simp [check_limits, hcu, hc, hno, checkTokenLimit, hmt, hlt]
  · intro hnc hnt
    have htl : checkTokenLimit bc (usageSub tu bc.initial_usage) = .ok := by
      rcases ht : bc.max_tokens with _ | mt
      · simp [checkTokenLimit, ht]
      · have hno : ¬ mt < (usageSub tu bc.initial_usage).total_tokens :=
          fun hl => hnt ⟨mt, ht, hl⟩
        simp [checkTokenLimit, ht, hno]
    rcases hc : bc.max_cost_usd with _ | mc
    · simp [check_limits, hcu, hc, htl]
    · have hno : ¬ mc < (usageSub tu bc.initial_usage).total_cost_usd :=
        fun hl => hnc ⟨mc, hc, hl⟩
      simp [check_limits, hcu, hc, hno, htl]
  · intro c m h
    have htl : ∀ u, checkTokenLimit bc u ≠ CheckOutcome.budgetExceeded c m := by
      intro u
      rcases ht : bc.max_tokens with _ | mt
      · simp [checkTokenLimit, ht]
      · by_cases hlt : mt < u.total_tokens <;> simp [checkTokenLimit, ht, hlt]
    rcases hc : bc.max_cost_usd with _ | mc
    · rw [check_limits, hcu] at h
      simp only [hc] at h
      exact absurd h (htl _)
    · rw [check_limits, hcu] at h
      simp only [hc] at h
      by_cases hlt : mc < (usageSub tu bc.initial_usage).total_cost_usd
      · rw [if_pos hlt] at h
        obtain ⟨hcq, hmq⟩ : (usageSub tu bc.initial_usage).total_cost_usd = c ∧ mc = m := by
          simpa using h
        subst hcq; subst hmq
        exact ⟨rfl, rfl, hlt⟩
      · rw [if_neg hlt] at h
        exact absurd h (htl _)
  · intro c m h
    have hinv : ∀ u, checkTokenLimit bc u = CheckOutcome.tokenLimitReached c m →
        bc.max_tokens = some m ∧ c = u.total_tokens ∧ m < u.total_tokens := by
      intro u hu
      rcases ht : bc.max_tokens with _ | mt
      · rw [checkTokenLimit, ht] at hu
        exact absurd hu (by simp)
      · rw [checkTokenLimit, ht] at hu
        have hu2 : (if mt < u.total_tokens then
            CheckOutcome.tokenLimitReached u.total_tokens mt else CheckOutcome.ok) =
            CheckOutcome.tokenLimitReached c m := hu
        by_cases hlt : mt < u.total_tokens
        · rw [if_pos hlt] at hu2
          obtain ⟨hcq, hmq⟩ : u.total_tokens = c ∧ mt = m := by simpa using hu2
          subst hcq; subst hmq
          exact ⟨rfl, rfl, hlt⟩
        · rw [if_neg hlt] at hu2
          exact absurd hu2 (by simp)
    rcases hc : bc.max_cost_usd with _ | mc
    · rw [check_limits, hcu] at h
      simp only [hc] at h
      obtain ⟨ha, hb, hd⟩ := hinv _ h
      exact ⟨ha, hb, hb ▸ hd, by rintro ⟨mc, hmc, _⟩; cases hmc⟩
    · rw [check_limits, hcu] at h
      simp only [hc] at h
      by_cases hlt : mc < (usageSub tu bc.initial_usage).total_cost_usd
      · rw [if_pos hlt] at h
        exact absurd h (by simp)
      · rw [if_neg hlt] at h
        obtain ⟨ha, hb, hd⟩ := hinv _ h
        refine ⟨ha, hb, hb ▸ hd, ?_⟩
        rintro ⟨mc2, hmc2, hl2⟩
        cases hmc2
        exact hlt hl2

/-- A context with both caps set low (cost cap 1, token cap 10), for the C3
witness. -/
def c3Ctx : BudgetContext := ⟨some 1, some 10, Usage.default⟩

/-- A usage snapshot breaching both caps of c3Ctx at once. -/
def c3Usage : Usage := ⟨100, 60, 40, 5, 1⟩

/-- Witness for claim C3: when one state breaches both the cost cap and the
token cap, exactly BudgetExceeded is raised, carrying current and max cost. -/
theorem claim_C3_witness :
    check_limits c3Ctx c3Usage =
      .budgetExceeded (usageSub c3Usage c3Ctx.initial_usage).total_cost_usd 1 :=
  (claim_C3 c3Ctx c3Usage (by decide) (by decide) (by decide) (by decide)
    (by decide)).1 1 (by rfl) (by norm_num [usageSub, c3Ctx, c3Usage, Usage.default])

/-- Shape of a successful track call: a cost was resolved and the resulting
state is the pre-state with the per-call record (calls = 1) added to the
global aggregate and to the provider map. -/
theorem track_success_shape (ps : PricingState) (s : TrackerState) (model : String)
    (pt ct : ℤ) (provider : String) (s1 : TrackerState)
    (h : track ps s model pt ct provider = (s1, none)) :
    ∃ cost, calculate_cost ps model pt ct = some cost ∧
      s1 = { s with
        usage := s.usage.add ⟨pt + ct, pt, ct, cost, 1⟩,
        usage_by_provider :=
          updateProvider s.usage_by_provider provider ⟨pt + ct, pt, ct, cost, 1⟩ } := by
  rw [track] at h
  cases hc : calculate_cost ps model pt ct with
  | none => simp only [hc] at h; exact absurd (congrArg Prod.snd h) (by simp)
  | some cost =>
    simp only [hc] at h
    cases hv : Usage.validate (pt + ct) pt ct cost 1 with
    | none => simp only [hv] at h; exact absurd (congrArg Prod.snd h) (by simp)
    | some record =>
      simp only [hv] at h
      have hrec : record = ⟨pt + ct, pt, ct, cost, 1⟩ := by
        unfold Usage.validate at hv
        split at hv
        · exact (Option.some.injEq _ _ ▸ hv).symm ▸ rfl
        · exact absurd hv (by simp)
      refine ⟨cost, rfl, ?_⟩
      have hs1 : s1 = { s with
          usage := s.usage.add record,
          usage_by_provider := updateProvider s.usage_by_provider provider record } :=
        (congrArg Prod.fst h).symm
      rw [hs1, hrec]

/-- Claim C6: track is all-or-nothing. If pricing resolution fails, track
fails with ModelNotFound and the whole tracker state (aggregate, provider
map, cache stats) is exactly the pre-state. If pricing resolution succeeds
(with the spec's non-negative token counts and ModelPrice fields), a Usage
record with calls = 1 and cost computed from the resolved price is added to
the global aggregate and to the named provider's subtotal, creating that
provider's entry on first use, while cache stats are untouched. -/
theorem claim_C6 (ps : PricingState) (s : TrackerState) (model : String)
    (pt ct : ℤ) (provider : String) :
    (get_price ps model = none →
      track ps s model pt ct provider = (s, some .modelNotFound)) ∧
    (∀ price, get_price ps model = some price → 0 ≤ pt → 0 ≤ ct →
      0 ≤ price.input_per_1k → 0 ≤ price.output_per_1k →
      (track ps s model pt ct provider).2 = none ∧
      (track ps s model pt ct provider).1.usage =
        s.usage.add ⟨pt + ct, pt, ct,
          (pt : ℚ) / 1000 * price.input_per_1k + (ct : ℚ) / 1000 * price.output_per_1k, 1⟩ ∧
      List.lookup provider (track ps s model pt ct provider).1.usage_by_provider =
        some (((List.lookup provider s.usage_by_provider).getD Usage.default).add
          ⟨pt + ct, pt, ct,
            (pt : ℚ) / 1000 * price.input_per_1k + (ct : ℚ) / 1000 * price.output_per_1k,
            1⟩) ∧
      (∀ q, q ≠ provider →
        List.lookup q (track ps s model pt ct provider).1.usage_by_provider =
          List.lookup q s.usage_by_provider) ∧
      (track ps s model pt ct provider).1.cache_stats = s.cache_stats) := by
  constructor
  · exact track_of_price_miss ps s model pt ct provider
  · intro price hp hpt hct hin hout
    have hptq : (0 : ℚ) ≤ (pt : ℚ) := by exact_mod_cast hpt
    have hctq : (0 : ℚ) ≤ (ct : ℚ) := by exact_mod_cast hct
    have hcost : 0 ≤ (pt : ℚ) / 1000 * price.input_per_1k +
        (ct : ℚ) / 1000 * price.output_per_1k :=
      add_nonneg
        (mul_nonneg (div_nonneg hptq (by norm_num)) hin)
        (mul_nonneg (div_nonneg hctq (by norm_num)) hout)
    have hc : calculate_cost ps model pt ct =
        some ((pt : ℚ) / 1000 * price.input_per_1k +
          (ct : ℚ) / 1000 * price.output_per_1k) := by
      simp [calculate_cost, hp]
    rw [track_of_success ps s model pt ct provider _ hc hpt hct hcost]
    exact ⟨rfl, rfl, lookup_updateProvider_self _ _ _,
      fun q hq => lookup_updateProvider_ne _ _ _ _ hq, rfl⟩

/-- Witness for claim C6: an unknown model leaves a fresh tracker untouched
and raises ModelNotFound; a known model adds exactly one priced record. -/
theorem claim_C6_witness :
    track initialPricingState trackerInit "unknown-model" 10 5 "openai" =
      (trackerInit, some TrackError.modelNotFound) ∧
    (track initialPricingState trackerInit "gpt-4o" 10 5 "openai").2 = none ∧
    (track initialPricingState trackerInit "gpt-4o" 10 5 "openai").1.usage =
      trackerInit.usage.add ⟨10 + 5, 10, 5,
        (10 : ℚ) / 1000 * (0.0025 : ℚ) + (5 : ℚ) / 1000 * (0.010 : ℚ), 1⟩ :=
  ⟨(claim_C6 initialPricingState trackerInit "unknown-model" 10 5 "openai").1
      (by simp [get_price, initialPricingState, fallbackDB, List.lookup]),
   ((claim_C6 initialPricingState trackerInit "gpt-4o" 10 5 "openai").2
      ⟨0.0025, 0.010, "openai"⟩
      (by simp [get_price, initialPricingState, fallbackDB, List.lookup])
      (by norm_num) (by norm_num) (by norm_num) (by norm_num)).1,
   ((claim_C6 initialPricingState trackerInit "gpt-4o" 10 5 "openai").2
      ⟨0.0025, 0.010, "openai"⟩
      (by simp [get_price, initialPricingState, fallbackDB, List.lookup])
      (by norm_num) (by norm_num) (by norm_num) (by norm_num)).2.1⟩

/-- The spec's Usage invariant: total_tokens = prompt_tokens +
completion_tokens. -/
def UsageInv (u : Usage) : Prop :=
  u.total_tokens = u.prompt_tokens + u.completion_tokens

/-- The invariant over the whole tracker state: it holds of the global
aggregate and of every per-provider subtotal. -/
def TrackerInv (s : TrackerState) : Prop :=
  UsageInv s.usage ∧ ∀ q u, List.lookup q s.usage_by_provider = some u → UsageInv u

/-- Field-wise accumulation preserves the Usage invariant. -/
theorem usageInv_add {u v : Usage} (hu : UsageInv u) (hv : UsageInv v) :
    UsageInv (u.add v) := by
  simp only [UsageInv, Usage.add] at *
  omega

/-- Claim C9: the tracker's own operations preserve the invariant
total_tokens = prompt_tokens + completion_tokens. A fresh tracker satisfies
it; every successful track call preserves it for the aggregate and every
provider subtotal, and the per-call delta it adds satisfies it as well;
reset re-establishes it. -/
theorem claim_C9 :
    TrackerInv trackerInit ∧
    (∀ ps s model pt ct provider s1,
      track ps s model pt ct provider = (s1, none) →
      TrackerInv s →
      TrackerInv s1 ∧
      s1.usage.total_tokens - s.usage.total_tokens =
        (s1.usage.prompt_tokens - s.usage.prompt_tokens) +
          (s1.usage.completion_tokens - s.usage.completion_tokens)) ∧
    (∀ s, TrackerInv (reset s)) := by
  refine ⟨⟨rfl, fun q u h => by cases h⟩, ?_, fun s => ⟨rfl, fun q u h => by cases h⟩⟩
  intro ps s model pt ct provider s1 h hs
  obtain ⟨cost, hc, hshape⟩ := track_success_shape ps s model pt ct provider s1 h
  subst hshape
  obtain ⟨hg, hp⟩ := hs
  refine ⟨⟨usageInv_add hg (by simp [UsageInv]), ?_⟩, by simp [Usage.add]⟩
  intro q u hq
  by_cases hqp : q = provider
  · subst hqp
    rw [lookup_updateProvider_self] at hq
    rw [← Option.some.inj hq]
    refine usageInv_add ?_ (by simp [UsageInv])
    cases hl : List.lookup q s.usage_by_provider with
    | none => simp [hl, Usage.default, UsageInv]
    | some u0 => simpa [hl] using hp q u0 hl
  · rw [lookup_updateProvider_ne _ _ _ _ hqp] at hq
    exact hp q u hq

/-- The tracker state after one successful demo call, for the C9 witness. -/
def c9After : TrackerState :=
  (track initialPricingState trackerInit "gpt-4o" 10 5 "openai").1

/-- Witness for claim C9: the invariant holds after a concrete successful
track call on a fresh tracker, and again after reset. -/
theorem claim_C9_witness :
    TrackerInv c9After ∧ TrackerInv (reset c9After) :=
  ⟨(claim_C9.2.1 initialPricingState trackerInit "gpt-4o" 10 5 "openai" c9After
      (by repeat (first
        | rfl
        | (simp [c9After, track, calculate_cost, get_price, initialPricingState,
            fallbackDB, Usage.validate, updateProvider, trackerInit, Usage.default,
            CacheStats.default, Usage.add, List.lookup])
        | norm_num))
      claim_C9.1).1,
   claim_C9.2.2 c9After⟩

end TokenBudget
